import Mathlib

/-!
Verification of the EMANE manager (`daemon/core/emane/emanemanager.py`)
of the CORE-PFW repository, as a shallow embedding in Lean.

Python dictionaries are embedded as association lists with
insertion-order semantics (`alookup` finds the first matching key,
`aupdate` replaces in place or appends), matching CPython dict
behaviour.  Mutable Python objects shared by reference (nodes) are
embedded as a table keyed by node id inside the manager state, so that
a mutation through one reference is visible through every other.
Fallible attribute accesses and raised exceptions are embedded with
`Except`.
-/

/-- First-match association-list lookup; embeds Python `dict.get`. -/
def alookup {κ α : Type} [DecidableEq κ] (k : κ) : List (κ × α) → Option α
  | [] => none
  | (k', v) :: rest => if k' = k then some v else alookup k rest

/-- Association-list update; embeds Python `dict` assignment: replace the
value in place when the key is present, append otherwise. -/
def aupdate {κ α : Type} [DecidableEq κ] (k : κ) (v : α) : List (κ × α) → List (κ × α)
  | [] => [(k, v)]
  | (k', v') :: rest => if k' = k then (k, v) :: rest else (k', v') :: aupdate k v rest

/-- Length of the decimal representation of a natural number, via an
explicit fuel argument (fuel `n` suffices since `n / 10 < n`). -/
def decimalLenAux : Nat → Nat → Nat
  | 0, _ => 1
  | fuel + 1, n => if n < 10 then 1 else 1 + decimalLenAux fuel (n / 10)

def decimalLen (n : Nat) : Nat := decimalLenAux n n

/-- Python `int()` applied to a real value: truncation toward zero. -/
def truncQ (q : ℚ) : ℤ := q.num.tdiv q.den

/-- Python `round()` applied to a real value: round half to even. -/
def pyRound (q : ℚ) : ℤ :=
  let f : ℤ := q.num.fdiv q.den
  let s : ℤ := 2 * q.num - (2 * f + 1) * q.den
  if s < 0 then f
  else if 0 < s then f + 1
  else if f % 2 = 0 then f else f + 1

/-- Model configuration: a Python `dict[str, str]` of option values, as an
insertion-ordered association list. -/
abbrev Config := List (String × String)

/-- An EMANE model class: its registered name and default option values
(`EmaneModel.name`, `EmaneModel.default_values`). -/
structure EmaneModel where
  name : String
  default_values : Config
deriving DecidableEq, Repr

/-- Identity of a virtual node (`CoreNode`/`NodeBase`): the immutable
attributes the manager reads through `iface.node`. -/
structure Node where
  id : Nat
  name : String
  up : Bool
  isCoreNode : Bool
deriving DecidableEq, Repr

/-- Identity of an interface (`CoreInterface`/`TunTap`).  `node` is the
back reference `iface.node` (`none` embeds a missing node reference),
`netId` is the id of `iface.net` and `isTunTap` records whether the
object is a `TunTap` instance. -/
structure Iface where
  id : Nat
  name : String
  node : Option Node
  netId : Option Nat
  isTunTap : Bool
deriving DecidableEq, Repr

/-- An EMANE network (`EmaneNet`): its id, name, selected wireless model
and attached interfaces (`emane_net.get_ifaces()`). -/
structure ENet where
  id : Nat
  name : String
  wireless_model : Option EmaneModel
  ifaces : List Iface
deriving DecidableEq, Repr

/-- Mutable state of a node's `position` object: `x`, `y`, `z` set by
`position.set`, and `lon`, `lat`, `alt` set by `position.set_geo`. -/
structure NodeSt where
  x : ℚ
  y : ℚ
  z : ℚ
  lon : Option ℚ
  lat : Option ℚ
  alt : Option ℚ
deriving DecidableEq, Repr

/-- `LinkTypes` enumeration (only the wireless member is used here). -/
inductive LinkTypes where
  | WIRELESS
  | WIRED
deriving DecidableEq, Repr

/-- `MessageFlags` enumeration members used by link data. -/
inductive MessageFlags where
  | NONE
  | ADD
  | DELETE
deriving DecidableEq, Repr

/-- The fields of `LinkData` populated by `EmaneManager.get_nem_link`. -/
structure LinkData where
  message_type : MessageFlags
  type : LinkTypes
  node1_id : Nat
  node2_id : Nat
  network_id : Nat
  color : String
deriving DecidableEq, Repr

/-- External side effects issued by the manager (daemon kill commands,
interface shutdowns, monitor and event-gateway teardown). -/
inductive ExtCmd where
  | linkMonitorStop
  | ifaceShutdown (ifaceName : String)
  | nodeCmd (nodeName cmd : String)
  | hostCmd (nodeName cmd : String)
  | eventShutdown
deriving DecidableEq, Repr

/-- A location entry `(nem_id, lon, lat, alt)` as published to the event
service. -/
abbrev LocEntry := Nat × ℚ × ℚ × ℤ

/-- State owned by an `EmaneManager` (plus the session-owned node
position table and the observable effect logs used to state the
claims).  `emane_nets` embeds `_emane_nets`; `nem_id_start` and
`link_enabled` are the session options read by the manager. -/
structure MState where
  emane_nets : List (Nat × ENet)
  nems_to_ifaces : List (Nat × Iface)
  ifaces_to_nems : List (Iface × Nat)
  node_configs : List (Nat × List (String × Config))
  platformport : Nat
  transformport : Nat
  nem_id_start : Nat
  link_enabled : Nat
  nodes : List (Nat × NodeSt)
  poshooks : List Iface
  nem_file : List String
  broadcasts : List Nat
  hookCalls : List Nat
  published : List (List LocEntry)
  ext_cmds : List ExtCmd
deriving DecidableEq, Repr

/-- Modelled from the spec: `core.utils.iface_config_id` is not under
`src/`; per the spec's data model, a ConfigKey is "an interface-composite
id `(node_id, iface_id)`", embedded as the composite integer key the
store indexes by. -/
def iface_config_id (node_id iface_id : Nat) : Nat := node_id * 1000 + iface_id

/-- `EmaneManager.get_config`: current or default configuration for a
model at a key.  The globally loaded model registry
(`EmaneModelManager.get`) is passed in as `registry`; an unknown model
raises `CoreError`. -/
def get_config (registry : String → Option EmaneModel)
    (node_configs : List (Nat × List (String × Config)))
    (key : Nat) (model : String) (dflt : Bool) : Except String (Option Config) :=
  match registry model with
  | none => Except.error ("model " ++ model ++ " does not exist")
  | some model_class =>
    let model_configs := alookup key node_configs
    let config : Option Config :=
      match model_configs with
      | some mcs => if mcs = [] then none else alookup model mcs
      | none => none
    match config with
    | none => if dflt then Except.ok (some model_class.default_values) else Except.ok none
    | some c => Except.ok (some c)

/-- Python truthiness filter on an optional configuration dict: `None`
and the empty dict are falsy. -/
def optTruthy (c : Option Config) : Option Config :=
  match c with
  | none => none
  | some l => if l = [] then none else some l

/-- `EmaneManager.get_iface_config`: interface-specific, then
node-specific, then network-specific stored configuration, finally the
model's default values. -/
def get_iface_config (registry : String → Option EmaneModel) (st : MState)
    (emane_net : ENet) (iface : Iface) : Except String Config :=
  match emane_net.wireless_model, iface.node with
  | some wm, some nd =>
    let model_name := wm.name
    let key := iface_config_id nd.id iface.id
    (get_config registry st.node_configs key model_name false).bind fun cfg1 =>
      match optTruthy cfg1 with
      | some c => Except.ok c
      | none =>
        (get_config registry st.node_configs nd.id model_name false).bind fun cfg2 =>
          match optTruthy cfg2 with
          | some c => Except.ok c
          | none =>
            (get_config registry st.node_configs emane_net.id model_name false).bind
              fun cfg3 =>
                match optTruthy cfg3 with
                | some c => Except.ok c
                | none => Except.ok wm.default_values
  | none, _ => Except.error "emane net has no wireless model"
  | _, none => Except.error "interface has no node"

/-- The linear search of `next_nem_id`'s while loop, with explicit fuel;
fuel `keys.length + 1` always suffices to find a free id. -/
def nextFreeAux (keys : List Nat) : Nat → Nat → Nat
  | 0, n => n
  | fuel + 1, n => if n ∈ keys then nextFreeAux keys fuel (n + 1) else n

/-- `EmaneManager.next_nem_id`: search upward from the `nem_id_start`
option for the first id not in `nems_to_ifaces`, record the two-way
mapping, and append a line to the session's nem index file (OS errors
there are logged, never raised; the node reference is present for every
interface the manager allocates ids for). -/
def next_nem_id (st : MState) (iface : Iface) : Nat × MState :=
  let keys := st.nems_to_ifaces.map Prod.fst
  let nem_id := nextFreeAux keys (keys.length + 1) st.nem_id_start
  let line := (match iface.node with | some nd => nd.name | none => "") ++ " "
      ++ iface.name ++ " " ++ toString nem_id
  (nem_id,
    { st with
      nems_to_ifaces := aupdate nem_id iface st.nems_to_ifaces
      ifaces_to_nems := aupdate iface nem_id st.ifaces_to_nems
      nem_file := st.nem_file ++ [line] })

/-- `EmaneManager.get_iface` (dict get on `nems_to_ifaces`). -/
def get_iface (st : MState) (nem_id : Nat) : Option Iface :=
  alookup nem_id st.nems_to_ifaces

/-- `EmaneManager.get_nem_id` (dict get on `ifaces_to_nems`). -/
def get_nem_id (st : MState) (iface : Iface) : Option Nat :=
  alookup iface st.ifaces_to_nems

/-- The value of Python `int("47" + format(n, "03"))`: the decimal
digits of `n`, zero-padded on the left to width three, appended to the
digits `47`. -/
def nem_port_format (n : Nat) : Nat := 47 * 10 ^ max 3 (decimalLen n) + n

/-- `EmaneManager.get_nem_port`: `int(f"47{nem_id:03}")`; when the
interface has no assigned nem id, Python formats `None` and `int`
raises `ValueError`. -/
def get_nem_port (st : MState) (iface : Iface) : Except String Nat :=
  match get_nem_id st iface with
  | some n => Except.ok (nem_port_format n)
  | none => Except.error "ValueError: invalid literal for int"

/-- `EmaneManager.add_node`: register an EMANE network under the node
lock, raising `CoreError` on a duplicate id. -/
def add_node (st : MState) (emane_net : ENet) : Except String MState :=
  match alookup emane_net.id st.emane_nets with
  | some _ =>
    Except.error ("duplicate emane network(" ++ toString emane_net.id ++ "): "
      ++ emane_net.name)
  | none =>
    Except.ok { st with emane_nets := aupdate emane_net.id emane_net st.emane_nets }

/-- The sort key of `EmaneManager.get_ifaces`:
`(iface.node.id, iface.id)`.  Every pair kept by the filter has a node
reference, so the default branch is never exercised. -/
def iface_sort_key (p : ENet × Iface) : Nat × Nat :=
  ((match p.2.node with | some nd => nd.id | none => 0), p.2.id)

/-- Lexicographic order on pairs of naturals, as Python compares key
tuples. -/
def tupleLe (a b : Nat × Nat) : Prop := a.1 < b.1 ∨ (a.1 = b.1 ∧ a.2 ≤ b.2)

instance : DecidableRel tupleLe := fun a b =>
  decidable_of_iff (a.1 < b.1 ∨ (a.1 = b.1 ∧ a.2 ≤ b.2)) Iff.rfl

def ifaceOrder (a b : ENet × Iface) : Prop :=
  tupleLe (iface_sort_key a) (iface_sort_key b)

instance : DecidableRel ifaceOrder := fun a b =>
  inferInstanceAs (Decidable (tupleLe _ _))

instance : IsTotal (ENet × Iface) ifaceOrder :=
  ⟨by intro p q; unfold ifaceOrder tupleLe; omega⟩

instance : IsTrans (ENet × Iface) ifaceOrder :=
  ⟨by intro a b c; unfold ifaceOrder tupleLe; omega⟩

/-- The pair list built by `EmaneManager.get_ifaces` before sorting:
networks without a model are skipped (logged error), interfaces without
a node are skipped (logged error), and only `TunTap` interfaces are
collected. -/
def eligible_ifaces (st : MState) : List (ENet × Iface) :=
  (st.emane_nets.map Prod.snd).flatMap fun emane_net =>
    match emane_net.wireless_model with
    | none => []
    | some _ =>
      emane_net.ifaces.filterMap fun iface =>
        match iface.node with
        | none => none
        | some _ => if iface.isTunTap then some (emane_net, iface) else none

/-- `EmaneManager.get_ifaces`: Python's `sorted` is the stable sort by
the key tuple, which insertion sort with the key's total preorder
computes. -/
def get_ifaces (st : MState) : List (ENet × Iface) :=
  List.insertionSort ifaceOrder (eligible_ifaces st)

/-- `EmaneManager.reset`: remove all EMANE networks and clear the nem
mappings (the source clears `nems_to_ifaces` a second time, a no-op).
The port counters are NOT touched by the source, and
`event_manager.reset()` carries no manager state modelled here. -/
def reset (st : MState) : MState :=
  { st with
    emane_nets := []
    nems_to_ifaces := []
    ifaces_to_nems := [] }

/-- Body of the per-interface loop of `EmaneManager.shutdown`: skip
interfaces of down nodes, issue the interface shutdown and kill command
(inside the node for `CoreNode`s, on the host otherwise) and clear the
position hook. -/
def shutdown_iface_step (s : MState) (p : ENet × Iface) : MState :=
  match p.2.node with
  | none => s
  | some nd =>
    if nd.up then
      let killCmd := "pkill -f " ++ "\"emane.+" ++ p.2.name ++ "\""
      let s₂ :=
        if nd.isCoreNode then
          { s with ext_cmds := s.ext_cmds ++
              [ExtCmd.ifaceShutdown p.2.name, ExtCmd.nodeCmd nd.name killCmd] }
        else
          { s with ext_cmds := s.ext_cmds ++ [ExtCmd.hostCmd nd.name killCmd] }
      { s₂ with poshooks := s₂.poshooks.filter (fun i => ¬ i = p.2) }
    else s

/-- `EmaneManager.shutdown`: a no-op when no networks are registered;
otherwise stop the link monitor when enabled, visit every interface of
`get_ifaces` (via `shutdown_iface_step`), finally shutting the event
gateway down. -/
def shutdown (st : MState) : MState :=
  if st.emane_nets = [] then st
  else
    let st₁ :=
      if st.link_enabled = 1 then
        { st with ext_cmds := st.ext_cmds ++ [ExtCmd.linkMonitorStop] }
      else st
    let st₂ := (get_ifaces st).foldl shutdown_iface_step st₁
    { st₂ with ext_cmds := st₂.ext_cmds ++ [ExtCmd.eventShutdown] }

/-- `EmaneManager.get_nem_position`: read the node's `(x, y, z)`,
convert through the session's geographic projection (`getgeo`, an
external collaborator passed as a parameter), prefer an explicit
altitude override, store the geo coordinates back on the node, round
altitude to the nearest integer and return `(nem_id, lon, lat, alt)`;
`none` when the interface has no nem id.  A missing node reference or
node state would raise in the source and is embedded as an error. -/
def get_nem_position (getgeo : ℚ → ℚ → ℚ → ℚ × ℚ × ℚ) (st : MState)
    (iface : Iface) : Except String (Option LocEntry × MState) :=
  match alookup iface st.ifaces_to_nems with
  | none => Except.ok (none, st)
  | some nem_id =>
    match iface.node with
    | none => Except.error "AttributeError: interface has no node"
    | some nd =>
      match alookup nd.id st.nodes with
      | none => Except.error "missing node position state"
      | some ns =>
        let g := getgeo ns.x ns.y ns.z
        let lat := g.1
        let lon := g.2.1
        let alt := match ns.alt with | some a => a | none => g.2.2
        let ns' := { ns with lon := some lon, lat := some lat, alt := some alt }
        let alt_i := pyRound alt
        Except.ok (some (nem_id, lon, lat, alt_i),
          { st with nodes := aupdate nd.id ns' st.nodes })

/-- The loop of `EmaneManager.set_nem_positions`: collect the position
of every moved interface, skipping those without one. -/
def set_nem_positions_go (getgeo : ℚ → ℚ → ℚ → ℚ × ℚ × ℚ) :
    MState → List Iface → List LocEntry → Except String (MState × List LocEntry)
  | st, [], acc => Except.ok (st, acc)
  | st, iface :: rest, acc =>
    match get_nem_position getgeo st iface with
    | Except.error e => Except.error e
    | Except.ok (none, st') => set_nem_positions_go getgeo st' rest acc
    | Except.ok (some p, st') => set_nem_positions_go getgeo st' rest (acc ++ [p])

/-- `EmaneManager.set_nem_positions`: return immediately on an empty
move list, otherwise gather the known positions and publish them as one
batched location event. -/
def set_nem_positions (getgeo : ℚ → ℚ → ℚ → ℚ × ℚ × ℚ) (st : MState)
    (moved_ifaces : List Iface) : Except String MState :=
  if moved_ifaces = [] then Except.ok st
  else
    match set_nem_positions_go getgeo st moved_ifaces [] with
    | Except.error e => Except.error e
    | Except.ok (st', positions) =>
      Except.ok { st' with published := st'.published ++ [positions] }

/-- `EmaneManager.handlelocationeventtoxyz`: convert an inbound
location event to `(x, y, z)` through the session projection
(`getxyz`), truncate each coordinate to an integer, drop the event when
a coordinate is negative or longer than 16 bits, otherwise write the
position and geo directly on the node (not via `setposition`, so no
position hook fires) and broadcast a node-changed message.  An unknown
NEM or a failing session node lookup returns `False`. -/
def handlelocationeventtoxyz (getxyz : ℚ → ℚ → ℚ → ℚ × ℚ × ℚ) (st : MState)
    (nemid : Nat) (lat lon alt : ℚ) : Except String (Bool × MState) :=
  match alookup nemid st.nems_to_ifaces with
  | none => Except.ok (false, st)
  | some iface =>
    match iface.node with
    | none => Except.error "AttributeError: interface has no node"
    | some nd =>
      let n := nd.id
      let c := getxyz lat lon alt
      let x := truncQ c.1
      let y := truncQ c.2.1
      let z := truncQ c.2.2
      let xbit_check := 65535 < x ∨ x < 0
      let ybit_check := 65535 < y ∨ y < 0
      let zbit_check := 65535 < z ∨ z < 0
      if xbit_check ∨ ybit_check ∨ zbit_check then Except.ok (false, st)
      else
        match alookup n st.nodes with
        | none => Except.ok (false, st)
        | some ns =>
          let ns' := { ns with
            x := (x : ℚ), y := (y : ℚ), z := (z : ℚ),
            lon := some lon, lat := some lat, alt := some alt }
          Except.ok (true,
            { st with
              nodes := aupdate n ns' st.nodes
              broadcasts := st.broadcasts ++ [n] })

/-- `EmaneManager.get_nem_link`: `none` for an unknown NEM on either
side or when the two interfaces are on different networks, otherwise a
wireless `LinkData` with the shared network's id and assigned color
(`session.get_link_color`, passed as `colorOf`). -/
def get_nem_link (colorOf : Nat → String) (st : MState) (nem1 nem2 : Nat)
    (flags : MessageFlags) : Except String (Option LinkData) :=
  match alookup nem1 st.nems_to_ifaces with
  | none => Except.ok none
  | some iface1 =>
    let node1 := iface1.node
    match alookup nem2 st.nems_to_ifaces with
    | none => Except.ok none
    | some iface2 =>
      let node2 := iface2.node
      if iface1.netId ≠ iface2.netId then Except.ok none
      else
        match iface1.netId, node1, node2 with
        | some netIdv, some n1, some n2 =>
          Except.ok (some
            { message_type := flags
              type := LinkTypes.WIRELESS
              node1_id := n1.id
              node2_id := n2.id
              network_id := netIdv
              color := colorOf netIdv })
        | _, _, _ => Except.error "AttributeError: missing network or node"

/-- Spec-side resolution, written from the specification's words: "the
first non-empty stored lookup in the order: key `(node_id, iface_id)`,
then key `node_id`, then key `network_id`, and finally the model's
default values when none of the three stored lookups is non-empty". -/
def storedLookup (node_configs : List (Nat × List (String × Config)))
    (key : Nat) (model_name : String) : Option Config :=
  match alookup key node_configs with
  | none => none
  | some mcs =>
    match alookup model_name mcs with
    | none => none
    | some c => if c = [] then none else some c

/-- Spec-side effective configuration for an interface (see
`storedLookup`); compared against the source-translated
`get_iface_config`. -/
def effective_config_spec (st : MState) (emane_net : ENet) (iface : Iface)
    (nd : Node) (wm : EmaneModel) : Config :=
  match storedLookup st.node_configs (iface_config_id nd.id iface.id) wm.name with
  | some c => c
  | none =>
    match storedLookup st.node_configs nd.id wm.name with
    | some c => c
    | none =>
      match storedLookup st.node_configs emane_net.id wm.name with
      | some c => c
      | none => wm.default_values

/-- The raw (possibly empty) stored lookup made by `get_config` with
`default=False`. -/
def rawLookup (node_configs : List (Nat × List (String × Config)))
    (key : Nat) (model_name : String) : Option Config :=
  match alookup key node_configs with
  | some mcs => if mcs = [] then none else alookup model_name mcs
  | none => none

/-- Two maps form a bijection: looking an assigned key up in one map
and the result up in the other returns the starting point, in both
directions.  This makes double assignment impossible in either map. -/
def MapsBij (m : List (Nat × Iface)) (w : List (Iface × Nat)) : Prop :=
  (∀ n i, alookup n m = some i → alookup i w = some n) ∧
  (∀ i n, alookup i w = some n → alookup n m = some i)

/-- The NEM maps of a manager state form a bijection. -/
def NemBij (st : MState) : Prop :=
  MapsBij st.nems_to_ifaces st.ifaces_to_nems

/-- Side condition for batched position publication: every moved
interface that has an assigned nem id also has a node reference and a
position record (as every interface started by the manager does). -/
def processable (st : MState) (moved : List Iface) : Prop :=
  ∀ iface ∈ moved, ∀ n, alookup iface st.ifaces_to_nems = some n →
    ∃ nd, iface.node = some nd ∧ (alookup nd.id st.nodes).isSome = true

/-- One mutating manager operation, as a relation between states.
`next_nem_id` carries the freshness guarantee the manager provides for
it: `start_iface` only allocates for interfaces enumerated once by
`get_ifaces` after the `reset` at the head of `startup`. -/
inductive Step : MState → MState → Prop where
  | nextNem (st : MState) (iface : Iface)
      (h : alookup iface st.ifaces_to_nems = none) :
      Step st (next_nem_id st iface).2
  | resetStep (st : MState) : Step st (reset st)
  | addNode (st st' : MState) (emane_net : ENet)
      (h : add_node st emane_net = Except.ok st') : Step st st'
  | shutdownStep (st : MState) : Step st (shutdown st)
  | locationEvent (getxyz : ℚ → ℚ → ℚ → ℚ × ℚ × ℚ) (st st' : MState)
      (nemid : Nat) (lat lon alt : ℚ) (b : Bool)
      (h : handlelocationeventtoxyz getxyz st nemid lat lon alt = Except.ok (b, st')) :
      Step st st'
  | nemPositions (getgeo : ℚ → ℚ → ℚ → ℚ × ℚ × ℚ) (st st' : MState)
      (moved : List Iface)
      (h : set_nem_positions getgeo st moved = Except.ok st') : Step st st'

/-- A manager state as `EmaneManager.__init__` leaves it (default
option values, everything empty). -/
def emptyState : MState :=
  { emane_nets := []
    nems_to_ifaces := []
    ifaces_to_nems := []
    node_configs := []
    platformport := 8100
    transformport := 8200
    nem_id_start := 1
    link_enabled := 0
    nodes := []
    poshooks := []
    nem_file := []
    broadcasts := []
    hookCalls := []
    published := []
    ext_cmds := [] }

/-- Fixture: a registered EMANE model. -/
def rfModel : EmaneModel :=
  { name := "emane_rfpipe"
    default_values := [("external", "0"), ("eventservicegroup", "224.1.2.8:45703")] }

/-- Fixture registry holding exactly `rfModel`. -/
def registryW : String → Option EmaneModel :=
  fun s => if s = "emane_rfpipe" then some rfModel else none

def node2 : Node := { id := 2, name := "n2", up := true, isCoreNode := true }

def node3 : Node := { id := 3, name := "n3", up := true, isCoreNode := true }

def node4 : Node := { id := 4, name := "n4", up := true, isCoreNode := false }

def iface20 : Iface :=
  { id := 0, name := "veth2", node := some node2, netId := some 5, isTunTap := true }

def iface30 : Iface :=
  { id := 0, name := "veth3", node := some node3, netId := some 5, isTunTap := true }

def iface40 : Iface :=
  { id := 0, name := "veth4", node := some node4, netId := some 7, isTunTap := true }

def net5 : ENet :=
  { id := 5, name := "wlan5", wireless_model := some rfModel, ifaces := [iface20, iface30] }

def net7 : ENet :=
  { id := 7, name := "wlan7", wireless_model := some rfModel, ifaces := [iface40] }

def nodeSt0 : NodeSt := { x := 0, y := 0, z := 0, lon := none, lat := none, alt := none }

/-- Decidable equality of `Except` results, for evaluating the embedded
operations on concrete inputs. -/
instance {e a : Type} [DecidableEq e] [DecidableEq a] : DecidableEq (Except e a) := fun x y =>
  match x, y with
  | Except.ok u, Except.ok v => decidable_of_iff (u = v) (by simp)
  | Except.error u, Except.error v => decidable_of_iff (u = v) (by simp)
  | Except.ok _, Except.error _ => isFalse (by simp)
  | Except.error _, Except.ok _ => isFalse (by simp)

/-- Fixture state for the batched-position witness: one interface with
nem id 1 and its node's position record. -/
def stBatch : MState :=
  { emptyState with ifaces_to_nems := [(iface20, 1)], nodes := [(2, nodeSt0)] }

-- ===================== THEOREMS =====================

theorem alookup_aupdate_self {κ α : Type} [DecidableEq κ] (k : κ) (v : α)
    (l : List (κ × α)) : alookup k (aupdate k v l) = some v := by
  induction l with
  | nil => simp [alookup, aupdate]
  | cons hd tl ih =>
    obtain ⟨k₀, v₀⟩ := hd
    by_cases h : k₀ = k <;> simp [alookup, aupdate, h, ih]

theorem alookup_aupdate_ne {κ α : Type} [DecidableEq κ] {k k' : κ} (v : α)
    (l : List (κ × α)) (h : k' ≠ k) :
    alookup k' (aupdate k v l) = alookup k' l := by
  induction l with
  | nil => simp [alookup, aupdate, Ne.symm h]
  | cons hd tl ih =>
    obtain ⟨k₀, v₀⟩ := hd
    by_cases hhd : k₀ = k
    · subst hhd
      simp [alookup, aupdate, Ne.symm h]
    · by_cases hk' : k₀ = k'
      · subst hk'
        simp [alookup, aupdate, hhd, h]
      · simp [alookup, aupdate, hhd, hk', ih]

theorem alookup_eq_none_iff {κ α : Type} [DecidableEq κ] (k : κ) (l : List (κ × α)) :
    alookup k l = none ↔ k ∉ l.map Prod.fst := by
  induction l with
  | nil => simp [alookup]
  | cons hd tl ih =>
    obtain ⟨k₀, v₀⟩ := hd
    by_cases h : k₀ = k
    · subst h
      simp [alookup]
    · simp [alookup, h, ih, Ne.symm h]

theorem alookup_isSome_aupdate {κ α : Type} [DecidableEq κ] (k j : κ) (v : α)
    (l : List (κ × α)) :
    (alookup j (aupdate k v l)).isSome = true ↔
      ((alookup j l).isSome = true ∨ j = k) := by
  by_cases h : j = k
  · subst h; simp [alookup_aupdate_self]
  · simp [alookup_aupdate_ne v l h, h]

theorem decimalLenAux_le {k : Nat} (hk : 1 ≤ k) :
    ∀ fuel n, n < 10 ^ k → decimalLenAux fuel n ≤ k := by
  induction k using Nat.strong_induction_on with
  | _ k ih =>
    intro fuel
    induction fuel with
    | zero => intro n _; simpa [decimalLenAux] using hk
    | succ fuel _ =>
      intro n hn
      by_cases hsmall : n < 10
      · simpa [decimalLenAux, hsmall] using hk
      · have hk2 : 2 ≤ k := by
          rcases Nat.lt_or_ge k 2 with hlt | hge
          · exfalso
            have hk1 : k = 1 := by omega
            subst hk1
            simp [pow_one] at hn
            omega
          · exact hge
        have hdiv : n / 10 < 10 ^ (k - 1) := by
          have h10 : (0:Nat) < 10 := by norm_num
          rw [Nat.div_lt_iff_lt_mul h10]
          have : 10 ^ (k - 1) * 10 = 10 ^ k := by
            rw [← pow_succ]
            congr 1
            omega
          omega
        have := ih (k - 1) (by omega) (by omega) fuel (n / 10) hdiv
        simp [decimalLenAux, hsmall]
        omega

theorem decimalLen_le_three {n : Nat} (h : n < 1000) : decimalLen n ≤ 3 :=
  decimalLenAux_le (by norm_num) n n (by norm_num; omega)

/-- C3 (counterexample): the claim "get_nem_port returns exactly
47000 + n" fails at the reachable assignment n = 1000 (for example with
the `nem_id_start` option set to 1000): the source computes
`int(f"47{nem_id:03}")`, which is 471000, not 48000. -/
theorem get_nem_port_counterexample :
    get_nem_id (next_nem_id { emptyState with nem_id_start := 1000 } iface20).2
        iface20 = some 1000 ∧
    get_nem_port (next_nem_id { emptyState with nem_id_start := 1000 } iface20).2
        iface20 = Except.ok 471000 ∧
    (471000 : Nat) ≠ 47000 + 1000 := by
  refine ⟨by decide, by decide, by decide⟩

/-- C3 (amended): for every interface whose assigned NemId is `n`, when
`n < 1000` (so that the three-digit zero-padded formatting is exact),
`get_nem_port` returns exactly `47000 + n`; in general it returns the
number formed by prefixing the digits 47 to `n` zero-padded to width
three. -/
theorem get_nem_port_below_1000 (st : MState) (iface : Iface) (n : Nat)
    (h : get_nem_id st iface = some n) (hn : n < 1000) :
    get_nem_port st iface = Except.ok (47000 + n) := by
  have h3 : max 3 (decimalLen n) = 3 := by
    have := decimalLen_le_three hn
    omega
  simp only [get_nem_port, h, nem_port_format, h3]
  norm_num

/-- Witness for C3's amended theorem at the assignment nem id 5. -/
theorem get_nem_port_below_1000_witness :
    get_nem_port { emptyState with ifaces_to_nems := [(iface20, 5)] } iface20 =
      Except.ok 47005 := by
  have h := get_nem_port_below_1000
    { emptyState with ifaces_to_nems := [(iface20, 5)] } iface20 5
    (by decide) (by norm_num)
  simpa using h

/-- C5 (code bug): `reset` empties the network map and both NEM maps,
but contrary to its own docstring ("reset port numbers and nem id
counters") it leaves the platform/transform port counters at their
current values (here 8105/8207, advanced from the configured 8100/8200)
instead of returning them to the configured starting values. -/
theorem reset_keeps_port_counters :
    (reset { emptyState with
        platformport := 8105
        transformport := 8207
        emane_nets := [(5, net5)]
        nems_to_ifaces := [(1, iface20)]
        ifaces_to_nems := [(iface20, 1)] }).emane_nets = [] ∧
    (reset { emptyState with
        platformport := 8105
        transformport := 8207
        emane_nets := [(5, net5)]
        nems_to_ifaces := [(1, iface20)]
        ifaces_to_nems := [(iface20, 1)] }).nems_to_ifaces = [] ∧
    (reset { emptyState with
        platformport := 8105
        transformport := 8207
        emane_nets := [(5, net5)]
        nems_to_ifaces := [(1, iface20)]
        ifaces_to_nems := [(iface20, 1)] }).ifaces_to_nems = [] ∧
    (reset { emptyState with
        platformport := 8105
        transformport := 8207
        emane_nets := [(5, net5)]
        nems_to_ifaces := [(1, iface20)]
        ifaces_to_nems := [(iface20, 1)] }).platformport = 8105 ∧
    (reset { emptyState with
        platformport := 8105
        transformport := 8207
        emane_nets := [(5, net5)]
        nems_to_ifaces := [(1, iface20)]
        ifaces_to_nems := [(iface20, 1)] }).transformport = 8207 := by
  refine ⟨rfl, rfl, rfl, rfl, rfl⟩

/-- C4 (counterexample): with one registered network holding one
interface on an up node, the first `shutdown` issues the interface
shutdown, the kill command and the event-gateway shutdown — and because
`shutdown` does not clear the network map, the second call issues them
all again instead of issuing nothing. -/
theorem shutdown_second_call_issues_commands :
    (shutdown { emptyState with emane_nets := [(5, net5)] }).ext_cmds ≠ [] ∧
    (shutdown (shutdown { emptyState with emane_nets := [(5, net5)] })).ext_cmds ≠
      (shutdown { emptyState with emane_nets := [(5, net5)] }).ext_cmds := by
  refine ⟨by decide, by decide⟩

/-- C4 (amended): calling `shutdown` is always safe (it is a total
function of the state), and a call made while no networks are
registered issues no external commands and leaves the state unchanged;
since `shutdown` does not clear the network map, the second of two
consecutive calls issues no commands only in that case. -/
theorem shutdown_noop_when_no_networks (st : MState) (h : st.emane_nets = []) :
    shutdown st = st := by
  unfold shutdown
  rw [h]
  simp

/-- Witness for C4's amended theorem: on the freshly initialized state
the double call is a no-op and issues no commands. -/
theorem shutdown_noop_when_no_networks_witness :
    shutdown (shutdown emptyState) = emptyState ∧ (shutdown emptyState).ext_cmds = [] := by
  have h1 := shutdown_noop_when_no_networks emptyState rfl
  constructor
  · rw [h1]
    exact h1
  · rw [h1]
    rfl

/-- C8: `add_node` on a fresh id inserts the network; a second
`add_node` with the same id raises `CoreError` ("duplicate emane
network") and the map is untouched: it still holds exactly the original
entry at that id and every other key is unchanged. -/
theorem add_node_duplicate_atomic (st : MState) (net net' : ENet)
    (h0 : alookup net.id st.emane_nets = none) (hid : net'.id = net.id) :
    add_node st net =
      Except.ok { st with emane_nets := aupdate net.id net st.emane_nets } ∧
    add_node { st with emane_nets := aupdate net.id net st.emane_nets } net' =
      Except.error ("duplicate emane network(" ++ toString net'.id ++ "): "
        ++ net'.name) ∧
    alookup net.id (aupdate net.id net st.emane_nets) = some net ∧
    (∀ j, j ≠ net.id →
      alookup j (aupdate net.id net st.emane_nets) = alookup j st.emane_nets) := by
  refine ⟨?_, ?_, alookup_aupdate_self net.id net st.emane_nets, ?_⟩
  · simp [add_node, h0]
  · simp only [add_node, hid, alookup_aupdate_self]
  · intro j hj
    exact alookup_aupdate_ne net st.emane_nets hj

/-- Witness for C8 at the duplicate-network scenario of the spec:
`add_node(net_id=5)` twice from the empty state. -/
theorem add_node_duplicate_atomic_witness :
    add_node emptyState net5 =
      Except.ok { emptyState with emane_nets := [(5, net5)] } ∧
    add_node { emptyState with emane_nets := [(5, net5)] } net5 =
      Except.error "duplicate emane network(5): wlan5" := by
  have h := add_node_duplicate_atomic emptyState net5 net5 (by decide) rfl
  constructor
  · exact h.1.trans (by decide)
  · have h2 := h.2.1
    refine Eq.trans ?_ (h2.trans (by decide))
    decide

/-- C7: `get_nem_link` returns `none` (not an error) when either nem id
has no assigned interface, and when both are assigned but their
interfaces sit on different networks; when both are assigned to
interfaces of the same network it returns a wireless `LinkData`
carrying the two node ids, the shared network id and that network's
assigned color. -/
theorem get_nem_link_cases (colorOf : Nat → String) (st : MState)
    (nem1 nem2 : Nat) (flags : MessageFlags) :
    ((alookup nem1 st.nems_to_ifaces = none ∨ alookup nem2 st.nems_to_ifaces = none) →
      get_nem_link colorOf st nem1 nem2 flags = Except.ok none) ∧
    (∀ iface1 iface2,
      alookup nem1 st.nems_to_ifaces = some iface1 →
      alookup nem2 st.nems_to_ifaces = some iface2 →
      iface1.netId ≠ iface2.netId →
      get_nem_link colorOf st nem1 nem2 flags = Except.ok none) ∧
    (∀ iface1 iface2 n1 n2 netIdv,
      alookup nem1 st.nems_to_ifaces = some iface1 →
      alookup nem2 st.nems_to_ifaces = some iface2 →
      iface1.node = some n1 → iface2.node = some n2 →
      iface1.netId = some netIdv → iface2.netId = some netIdv →
      get_nem_link colorOf st nem1 nem2 flags = Except.ok (some
        { message_type := flags
          type := LinkTypes.WIRELESS
          node1_id := n1.id
          node2_id := n2.id
          network_id := netIdv
          color := colorOf netIdv })) := by
  refine ⟨?_, ?_, ?_⟩
  · rintro (h | h)
    · simp [get_nem_link, h]
    · cases h1 : alookup nem1 st.nems_to_ifaces with
      | none => simp [get_nem_link, h1]
      | some iface1 => simp [get_nem_link, h1, h]
  · intro iface1 iface2 h1 h2 hne
    simp [get_nem_link, h1, h2, hne]
  · intro iface1 iface2 n1 n2 netIdv h1 h2 hn1 hn2 hv1 hv2
    simp [get_nem_link, h1, h2, hn1, hn2, hv1, hv2]

/-- Witness for C7: unknown nem (id 9), cross-network pair (nems 1 and
5, networks 5 and 7), and same-network pair (nems 1 and 2, network 5). -/
theorem get_nem_link_cases_witness :
    get_nem_link (fun _ => "#009933") { emptyState with
        nems_to_ifaces := [(1, iface20), (2, iface30), (5, iface40)] }
      1 9 MessageFlags.NONE = Except.ok none ∧
    get_nem_link (fun _ => "#009933") { emptyState with
        nems_to_ifaces := [(1, iface20), (2, iface30), (5, iface40)] }
      1 5 MessageFlags.NONE = Except.ok none ∧
    get_nem_link (fun _ => "#009933") { emptyState with
        nems_to_ifaces := [(1, iface20), (2, iface30), (5, iface40)] }
      1 2 MessageFlags.NONE = Except.ok (some
        { message_type := MessageFlags.NONE
          type := LinkTypes.WIRELESS
          node1_id := 2
          node2_id := 3
          network_id := 5
          color := "#009933" }) := by
  refine ⟨?_, ?_, ?_⟩
  · exact (get_nem_link_cases (fun _ => "#009933") _ 1 9 MessageFlags.NONE).1
      (Or.inr (by decide))
  · exact (get_nem_link_cases (fun _ => "#009933") _ 1 5 MessageFlags.NONE).2.1
      iface20 iface40 (by decide) (by decide) (by decide)
  · exact (get_nem_link_cases (fun _ => "#009933") _ 1 2 MessageFlags.NONE).2.2
      iface20 iface30 node2 node3 5 (by decide) (by decide) (by decide) (by decide)
      (by decide) (by decide)

/-- C6: an inbound location event for nem `nemid` is converted through
the session projection and each coordinate truncated to an integer; if
any coordinate is negative or exceeds 16 bits the handler returns
`False` and the state — node positions, broadcasts, hook-call log — is
untouched; otherwise it writes the position and geo directly on the
node (no position hook fires: the hook-call log is unchanged), appends
exactly one node-changed broadcast, and returns `True`. -/
theorem handle_location_event_behaviour (getxyz : ℚ → ℚ → ℚ → ℚ × ℚ × ℚ)
    (st : MState) (nemid : Nat) (lat lon alt xr yr zr : ℚ)
    (iface : Iface) (nd : Node)
    (hif : alookup nemid st.nems_to_ifaces = some iface)
    (hnd : iface.node = some nd)
    (hc : getxyz lat lon alt = (xr, yr, zr)) :
    (((65535 < truncQ xr ∨ truncQ xr < 0) ∨ (65535 < truncQ yr ∨ truncQ yr < 0) ∨
        (65535 < truncQ zr ∨ truncQ zr < 0)) →
      handlelocationeventtoxyz getxyz st nemid lat lon alt = Except.ok (false, st)) ∧
    (∀ ns, alookup nd.id st.nodes = some ns →
      ¬((65535 < truncQ xr ∨ truncQ xr < 0) ∨ (65535 < truncQ yr ∨ truncQ yr < 0) ∨
          (65535 < truncQ zr ∨ truncQ zr < 0)) →
      handlelocationeventtoxyz getxyz st nemid lat lon alt = Except.ok (true,
        { st with
          nodes := aupdate nd.id { ns with
            x := (truncQ xr : ℚ), y := (truncQ yr : ℚ), z := (truncQ zr : ℚ),
            lon := some lon, lat := some lat, alt := some alt } st.nodes
          broadcasts := st.broadcasts ++ [nd.id] })) := by
  constructor
  · intro hbad
    simp only [handlelocationeventtoxyz, hif, hnd, hc]
    rw [if_pos hbad]
  · intro ns hns hgood
    simp only [handlelocationeventtoxyz, hif, hnd, hc]
    rw [if_neg hgood, hns]

/-- Witness for C6 at the spec's invalid-event scenario: the projection
yields `z = 70000`, which exceeds 16 bits, so the handler returns
`False` and changes nothing. -/
theorem handle_location_event_behaviour_witness :
    handlelocationeventtoxyz (fun _ _ _ => ((0 : ℚ), (0 : ℚ), (70000 : ℚ)))
      { emptyState with nems_to_ifaces := [(1, iface20)], nodes := [(2, nodeSt0)] }
      1 0 0 9000000000 =
      Except.ok (false,
        { emptyState with nems_to_ifaces := [(1, iface20)], nodes := [(2, nodeSt0)] }) :=
  (handle_location_event_behaviour (fun _ _ _ => ((0 : ℚ), (0 : ℚ), (70000 : ℚ)))
    { emptyState with nems_to_ifaces := [(1, iface20)], nodes := [(2, nodeSt0)] }
    1 0 0 9000000000 0 0 70000 iface20 node2 (by decide) (by decide) rfl).1
    (by decide)

theorem get_config_false_ok (registry : String → Option EmaneModel)
    (cfgs : List (Nat × List (String × Config))) (key : Nat) (mn : String)
    (cls : EmaneModel) (hreg : registry mn = some cls) :
    get_config registry cfgs key mn false = Except.ok (rawLookup cfgs key mn) := by
  unfold get_config rawLookup
  rw [hreg]
  cases h : alookup key cfgs with
  | none => rfl
  | some mcs =>
    by_cases he : mcs = []
    · simp [he]
    · simp only [he, reduceIte]
      cases alookup mn mcs <;> rfl

theorem optTruthy_rawLookup (cfgs : List (Nat × List (String × Config)))
    (key : Nat) (mn : String) :
    optTruthy (rawLookup cfgs key mn) = storedLookup cfgs key mn := by
  unfold optTruthy rawLookup storedLookup
  cases h : alookup key cfgs with
  | none => simp
  | some mcs =>
    by_cases he : mcs = []
    · subst he
      simp [alookup]
    · simp [he]

/-- C1: for an interface attached to a radio network whose model is
registered, the effective configuration computed by the source's
`get_iface_config` equals the spec-side resolution: the first non-empty
stored lookup among keys `(node_id, iface_id)`, `node_id` and
`network_id`, and the model's default values when all three are
empty. -/
theorem get_iface_config_matches_spec (registry : String → Option EmaneModel)
    (st : MState) (emane_net : ENet) (iface : Iface) (nd : Node)
    (wm cls : EmaneModel)
    (hwm : emane_net.wireless_model = some wm)
    (hnd : iface.node = some nd)
    (hreg : registry wm.name = some cls) :
    get_iface_config registry st emane_net iface =
      Except.ok (effective_config_spec st emane_net iface nd wm) := by
  unfold get_iface_config effective_config_spec
  rw [hwm, hnd]
  dsimp only
  rw [get_config_false_ok registry st.node_configs _ wm.name cls hreg]
  simp only [Except.bind]
  rw [optTruthy_rawLookup]
  cases h1 : storedLookup st.node_configs (iface_config_id nd.id iface.id) wm.name with
  | some c => rfl
  | none =>
    rw [get_config_false_ok registry st.node_configs nd.id wm.name cls hreg]
    simp only [Except.bind]
    rw [optTruthy_rawLookup]
    cases h2 : storedLookup st.node_configs nd.id wm.name with
    | some c => rfl
    | none =>
      rw [get_config_false_ok registry st.node_configs emane_net.id wm.name cls hreg]
      simp only [Except.bind]
      rw [optTruthy_rawLookup]
      cases h3 : storedLookup st.node_configs emane_net.id wm.name with
      | some c => rfl
      | none => rfl

/-- Witness for C1 at the spec's override fixture: a sentinel planted
only at key `(node=2, iface=0)` resolves for that interface, while the
sibling interface falls through to the model defaults. -/
theorem get_iface_config_matches_spec_witness :
    get_iface_config registryW
      { emptyState with node_configs := [(2000, [("emane_rfpipe", [("external", "1")])])] }
      net5 iface20 = Except.ok [("external", "1")] ∧
    get_iface_config registryW
      { emptyState with node_configs := [(2000, [("emane_rfpipe", [("external", "1")])])] }
      net5 iface30 = Except.ok rfModel.default_values := by
  constructor
  · exact (get_iface_config_matches_spec registryW
      { emptyState with node_configs := [(2000, [("emane_rfpipe", [("external", "1")])])] }
      net5 iface20 node2 rfModel rfModel (by decide) (by decide) (by decide)).trans
      (by decide)
  · exact (get_iface_config_matches_spec registryW
      { emptyState with node_configs := [(2000, [("emane_rfpipe", [("external", "1")])])] }
      net5 iface30 node3 rfModel rfModel (by decide) (by decide) (by decide)).trans
      (by decide)

theorem mem_eligible_ifaces (st : MState) (net : ENet) (iface : Iface) :
    (net, iface) ∈ eligible_ifaces st ↔
      (net ∈ st.emane_nets.map Prod.snd ∧ iface ∈ net.ifaces ∧
        net.wireless_model.isSome = true ∧ iface.node.isSome = true ∧
        iface.isTunTap = true) := by
  unfold eligible_ifaces
  rw [List.mem_flatMap]
  constructor
  · rintro ⟨net₀, hnet₀, hmem⟩
    cases hm : net₀.wireless_model with
    | none =>
      rw [hm] at hmem
      simp at hmem
    | some wm =>
      rw [hm] at hmem
      rw [List.mem_filterMap] at hmem
      obtain ⟨if₀, hif₀, heq⟩ := hmem
      cases hn : if₀.node with
      | none =>
        rw [hn] at heq
        simp at heq
      | some nd₀ =>
        rw [hn] at heq
        by_cases ht : if₀.isTunTap = true
        · rw [if_pos ht] at heq
          simp only [Option.some.injEq, Prod.mk.injEq] at heq
          obtain ⟨h1, h2⟩ := heq
          subst h1
          subst h2
          exact ⟨hnet₀, hif₀, by simp [hm], by simp [hn], ht⟩
        · rw [if_neg ht] at heq
          exact absurd heq (by simp)
  · rintro ⟨hnet, hif, hmod, hnode, htt⟩
    refine ⟨net, hnet, ?_⟩
    obtain ⟨wm, hm⟩ := Option.isSome_iff_exists.mp hmod
    obtain ⟨nd, hn⟩ := Option.isSome_iff_exists.mp hnode
    rw [hm]
    rw [List.mem_filterMap]
    exact ⟨iface, hif, by rw [hn, if_pos htt]⟩

/-- C9: `get_ifaces` yields the (network, interface) pairs of all
registered networks sorted ascending by the key `(node_id, iface_id)`;
it is a permutation of the unsorted collection, whose members are
exactly the tunnel/tap interfaces of registered networks that have a
model, for interfaces whose node reference is present. -/
theorem get_ifaces_sorted_and_complete (st : MState) :
    List.Sorted ifaceOrder (get_ifaces st) ∧
    (get_ifaces st).Perm (eligible_ifaces st) ∧
    ∀ net iface, (net, iface) ∈ get_ifaces st ↔
      (net ∈ st.emane_nets.map Prod.snd ∧ iface ∈ net.ifaces ∧
        net.wireless_model.isSome = true ∧ iface.node.isSome = true ∧
        iface.isTunTap = true) := by
  refine ⟨List.sorted_insertionSort ifaceOrder (eligible_ifaces st),
    List.perm_insertionSort ifaceOrder (eligible_ifaces st), ?_⟩
  intro net iface
  rw [get_ifaces, List.mem_insertionSort]
  exact mem_eligible_ifaces st net iface

theorem get_nem_position_none (getgeo : ℚ → ℚ → ℚ → ℚ × ℚ × ℚ) (st : MState)
    (iface : Iface) (h : alookup iface st.ifaces_to_nems = none) :
    get_nem_position getgeo st iface = Except.ok (none, st) := by
  unfold get_nem_position
  rw [h]

theorem get_nem_position_some (getgeo : ℚ → ℚ → ℚ → ℚ × ℚ × ℚ) (st : MState)
    (iface : Iface) (nem : Nat) (nd : Node) (ns : NodeSt)
    (h : alookup iface st.ifaces_to_nems = some nem)
    (hnd : iface.node = some nd)
    (hns : alookup nd.id st.nodes = some ns) :
    ∃ e st₂, get_nem_position getgeo st iface = Except.ok (some e, st₂) ∧
      e.1 = nem ∧ st₂.ifaces_to_nems = st.ifaces_to_nems ∧
      st₂.published = st.published ∧
      ∀ j, (alookup j st₂.nodes).isSome = (alookup j st.nodes).isSome := by
  unfold get_nem_position
  rw [h]
  dsimp only
  rw [hnd]
  dsimp only
  rw [hns]
  refine ⟨_, _, rfl, rfl, rfl, rfl, ?_⟩
  intro j
  by_cases hj : j = nd.id
  · subst hj
    simp [alookup_aupdate_self, hns]
  · rw [alookup_aupdate_ne _ _ hj]

theorem snpGo_spec (getgeo : ℚ → ℚ → ℚ → ℚ × ℚ × ℚ) :
    ∀ (moved : List Iface) (st : MState) (acc : List LocEntry),
    processable st moved →
    ∃ st' entries,
      set_nem_positions_go getgeo st moved acc = Except.ok (st', acc ++ entries) ∧
      entries.map Prod.fst = moved.filterMap (fun i => alookup i st.ifaces_to_nems) ∧
      st'.published = st.published ∧
      st'.ifaces_to_nems = st.ifaces_to_nems := by
  intro moved
  induction moved with
  | nil =>
    intro st acc _
    exact ⟨st, [], by simp [set_nem_positions_go], by simp, rfl, rfl⟩
  | cons iface rest ih =>
    intro st acc hp
    have hptail : processable st rest := by
      intro i hi n hn
      exact hp i (List.mem_cons_of_mem iface hi) n hn
    cases h : alookup iface st.ifaces_to_nems with
    | none =>
      have hstep := get_nem_position_none getgeo st iface h
      obtain ⟨st', entries, hgo, hmap, hpub, hifn⟩ := ih st acc hptail
      refine ⟨st', entries, ?_, ?_, hpub, hifn⟩
      · simp only [set_nem_positions_go, hstep]
        exact hgo
      · rw [hmap, List.filterMap_cons]
        simp [h]
    | some nem =>
      obtain ⟨nd, hnd, hns0⟩ := hp iface (List.mem_cons_self iface rest) nem h
      obtain ⟨ns, hns⟩ := Option.isSome_iff_exists.mp hns0
      obtain ⟨e, st₂, hstep, he1, hifn₂, hpub₂, hkeys₂⟩ :=
        get_nem_position_some getgeo st iface nem nd ns h hnd hns
      have hp₂ : processable st₂ rest := by
        intro i hi n hn
        rw [hifn₂] at hn
        obtain ⟨nd', hnd', hsome⟩ := hptail i hi n hn
        exact ⟨nd', hnd', by rw [hkeys₂]; exact hsome⟩
      obtain ⟨st', entries, hgo, hmap, hpub, hifn⟩ := ih st₂ (acc ++ [e]) hp₂
      refine ⟨st', e :: entries, ?_, ?_, by rw [hpub, hpub₂], by rw [hifn, hifn₂]⟩
      · simp only [set_nem_positions_go, hstep]
        rw [hgo]
        simp
      · rw [List.filterMap_cons]
        simp only [h, List.map_cons]
        rw [he1, hmap, hifn₂]

/-- C10: `set_nem_positions` on an empty move list returns immediately
with no publication; on a non-empty list it makes exactly one batched
`publish_locations` call whose entries carry precisely the nem ids of
the moved interfaces that have one assigned (interfaces without an
assigned nem id contribute no entry). -/
theorem set_nem_positions_single_batch (getgeo : ℚ → ℚ → ℚ → ℚ × ℚ × ℚ)
    (st : MState) (moved : List Iface) :
    (set_nem_positions getgeo st [] = Except.ok st) ∧
    (moved ≠ [] → processable st moved →
      ∃ st' entries, set_nem_positions getgeo st moved = Except.ok st' ∧
        st'.published = st.published ++ [entries] ∧
        entries.map Prod.fst =
          moved.filterMap (fun i => alookup i st.ifaces_to_nems)) := by
  constructor
  · rfl
  · intro hne hp
    obtain ⟨st', entries, hgo, hmap, hpub, _⟩ := snpGo_spec getgeo moved st [] hp
    refine ⟨{ st' with published := st'.published ++ [entries] }, entries, ?_, ?_, hmap⟩
    · simp only [set_nem_positions, hne, reduceIte, if_neg hne]
      rw [hgo]
      simp
    · simp [hpub]

/-- Witness for C10: two moved interfaces, of which only the first has
an assigned nem id; one batch is published and it covers exactly that
interface. -/
theorem set_nem_positions_single_batch_witness :
    ∃ st' entries,
      set_nem_positions (fun x y z => (x, y, z)) stBatch [iface20, iface30] =
        Except.ok st' ∧
      st'.published = stBatch.published ++ [entries] ∧
      entries.map Prod.fst =
        [iface20, iface30].filterMap (fun i => alookup i stBatch.ifaces_to_nems) := by
  refine (set_nem_positions_single_batch (fun x y z => (x, y, z)) stBatch
    [iface20, iface30]).2 (by decide) ?_
  intro i hi n hn
  simp only [List.mem_cons, List.mem_singleton, List.not_mem_nil, or_false] at hi
  rcases hi with hi | hi
  · subst hi
    have hfact : alookup iface20 stBatch.ifaces_to_nems = some 1 := by decide
    rw [hfact] at hn
    have hn1 : n = 1 := (Option.some.inj hn).symm
    subst hn1
    exact ⟨node2, rfl, by decide⟩
  · subst hi
    have hfact : alookup iface30 stBatch.ifaces_to_nems = none := by decide
    rw [hfact] at hn
    exact absurd hn (by simp)

theorem nextFreeAux_not_mem_of_exists (keys : List Nat) :
    ∀ fuel n, (∃ m, m < fuel ∧ (n + m) ∉ keys) → nextFreeAux keys fuel n ∉ keys := by
  intro fuel
  induction fuel with
  | zero =>
    intro n hex
    obtain ⟨m, hm, _⟩ := hex
    exact absurd hm (Nat.not_lt_zero m)
  | succ fuel ih =>
    intro n hex
    obtain ⟨m, hm, hfree⟩ := hex
    by_cases hn : n ∈ keys
    · have hm0 : m ≠ 0 := by
        rintro rfl
        simp only [Nat.add_zero] at hfree
        exact hfree hn
      obtain ⟨m', rfl⟩ := Nat.exists_eq_succ_of_ne_zero hm0
      have hstep : (n + 1) + m' ∉ keys := by
        rw [show n + 1 + m' = n + (m' + 1) by omega]
        exact hfree
      simpa [nextFreeAux, hn] using ih (n + 1) ⟨m', by omega, hstep⟩
    · simp [nextFreeAux, hn]

theorem exists_free_slot (keys : List Nat) (n : Nat) :
    ∃ m, m < keys.length + 1 ∧ (n + m) ∉ keys := by
  by_contra hcon
  push_neg at hcon
  have hsub : (Finset.range (keys.length + 1)).image (fun m => n + m) ⊆
      keys.toFinset := by
    intro x hx
    rw [Finset.mem_image] at hx
    obtain ⟨m, hm, rfl⟩ := hx
    rw [Finset.mem_range] at hm
    exact List.mem_toFinset.mpr (hcon m hm)
  have hinj : Function.Injective (fun m => n + m) := by
    intro a b hab
    simpa using hab
  have hcard : keys.length + 1 ≤ keys.toFinset.card := by
    calc keys.length + 1
        = ((Finset.range (keys.length + 1)).image (fun m => n + m)).card := by
          rw [Finset.card_image_of_injective _ hinj, Finset.card_range]
      _ ≤ keys.toFinset.card := Finset.card_le_card hsub
  have := List.toFinset_card_le keys
  omega

/-- The id found by `next_nem_id`'s linear search is not currently
assigned. -/
theorem nextFree_fresh (keys : List Nat) (n : Nat) :
    nextFreeAux keys (keys.length + 1) n ∉ keys :=
  nextFreeAux_not_mem_of_exists keys (keys.length + 1) n (exists_free_slot keys n)

theorem maps_bij_insert {m : List (Nat × Iface)} {w : List (Iface × Nat)}
    {iface : Iface} {nem : Nat}
    (hbij : MapsBij m w) (hfi : alookup iface w = none)
    (hfn : alookup nem m = none) :
    MapsBij (aupdate nem iface m) (aupdate iface nem w) := by
  obtain ⟨hfwd, hbwd⟩ := hbij
  constructor
  · intro n i hni
    by_cases hn : n = nem
    · subst hn
      rw [alookup_aupdate_self] at hni
      injection hni with hh
      subst hh
      exact alookup_aupdate_self _ _ _
    · rw [alookup_aupdate_ne _ _ hn] at hni
      have hw := hfwd n i hni
      have hne : i ≠ iface := by
        intro hcon
        subst hcon
        rw [hfi] at hw
        exact Option.noConfusion hw
      rw [alookup_aupdate_ne _ _ hne]
      exact hw
  · intro i n hin
    by_cases hi : i = iface
    · subst hi
      rw [alookup_aupdate_self] at hin
      injection hin with hh
      subst hh
      exact alookup_aupdate_self _ _ _
    · rw [alookup_aupdate_ne _ _ hi] at hin
      have hm := hbwd i n hin
      have hne : n ≠ nem := by
        intro hcon
        subst hcon
        rw [hfn] at hm
        exact Option.noConfusion hm
      rw [alookup_aupdate_ne _ _ hne]
      exact hm

theorem shutdown_iface_step_preserves (s : MState) (p : ENet × Iface) :
    (shutdown_iface_step s p).nems_to_ifaces = s.nems_to_ifaces ∧
    (shutdown_iface_step s p).ifaces_to_nems = s.ifaces_to_nems := by
  unfold shutdown_iface_step
  cases p.2.node with
  | none => exact ⟨rfl, rfl⟩
  | some nd =>
    by_cases hup : nd.up <;> by_cases hc : nd.isCoreNode <;>
      simp [hup, hc]

theorem foldl_shutdown_preserves (l : List (ENet × Iface)) :
    ∀ s : MState,
      (l.foldl shutdown_iface_step s).nems_to_ifaces = s.nems_to_ifaces ∧
      (l.foldl shutdown_iface_step s).ifaces_to_nems = s.ifaces_to_nems := by
  induction l with
  | nil => intro s; exact ⟨rfl, rfl⟩
  | cons p t ih =>
    intro s
    have h1 := shutdown_iface_step_preserves s p
    have h2 := ih (shutdown_iface_step s p)
    exact ⟨h2.1.trans h1.1, h2.2.trans h1.2⟩

theorem shutdown_preserves_nem_maps (st : MState) :
    (shutdown st).nems_to_ifaces = st.nems_to_ifaces ∧
    (shutdown st).ifaces_to_nems = st.ifaces_to_nems := by
  unfold shutdown
  by_cases h : st.emane_nets = []
  · rw [if_pos h]
    exact ⟨rfl, rfl⟩
  · rw [if_neg h]
    dsimp only
    by_cases hl : st.link_enabled = 1 <;> simp only [hl, reduceIte] <;>
      exact foldl_shutdown_preserves (get_ifaces st) _

theorem add_node_ok_preserves (st st' : MState) (emane_net : ENet)
    (h : add_node st emane_net = Except.ok st') :
    st'.nems_to_ifaces = st.nems_to_ifaces ∧
    st'.ifaces_to_nems = st.ifaces_to_nems := by
  unfold add_node at h
  split at h
  · exact absurd h (by simp)
  · injection h with h'
    subst h'
    exact ⟨rfl, rfl⟩

theorem handle_loc_preserves_nem_maps (getxyz : ℚ → ℚ → ℚ → ℚ × ℚ × ℚ)
    (st st' : MState) (nemid : Nat) (lat lon alt : ℚ) (b : Bool)
    (h : handlelocationeventtoxyz getxyz st nemid lat lon alt = Except.ok (b, st')) :
    st'.nems_to_ifaces = st.nems_to_ifaces ∧
    st'.ifaces_to_nems = st.ifaces_to_nems := by
  unfold handlelocationeventtoxyz at h
  split at h
  · simp only [Except.ok.injEq, Prod.mk.injEq] at h
    obtain ⟨_, hst⟩ := h
    subst hst
    exact ⟨rfl, rfl⟩
  · split at h
    · exact absurd h (by simp)
    · dsimp only at h
      split at h
      · simp only [Except.ok.injEq, Prod.mk.injEq] at h
        obtain ⟨_, hst⟩ := h
        subst hst
        exact ⟨rfl, rfl⟩
      · split at h
        · simp only [Except.ok.injEq, Prod.mk.injEq] at h
          obtain ⟨_, hst⟩ := h
          subst hst
          exact ⟨rfl, rfl⟩
        · simp only [Except.ok.injEq, Prod.mk.injEq] at h
          obtain ⟨_, hst⟩ := h
          subst hst
          exact ⟨rfl, rfl⟩

theorem get_nem_position_preserves (getgeo : ℚ → ℚ → ℚ → ℚ × ℚ × ℚ)
    (st : MState) (iface : Iface) (res : Option LocEntry) (st₂ : MState)
    (h : get_nem_position getgeo st iface = Except.ok (res, st₂)) :
    st₂.nems_to_ifaces = st.nems_to_ifaces ∧
    st₂.ifaces_to_nems = st.ifaces_to_nems := by
  unfold get_nem_position at h
  split at h
  · simp only [Except.ok.injEq, Prod.mk.injEq] at h
    obtain ⟨_, hst⟩ := h
    subst hst
    exact ⟨rfl, rfl⟩
  · split at h
    · exact absurd h (by simp)
    · split at h
      · exact absurd h (by simp)
      · simp only [Except.ok.injEq, Prod.mk.injEq] at h
        obtain ⟨_, hst⟩ := h
        subst hst
        exact ⟨rfl, rfl⟩

theorem snpGo_preserves_nem_maps (getgeo : ℚ → ℚ → ℚ → ℚ × ℚ × ℚ) :
    ∀ (moved : List Iface) (st : MState) (acc : List LocEntry)
      (st' : MState) (es : List LocEntry),
    set_nem_positions_go getgeo st moved acc = Except.ok (st', es) →
    st'.nems_to_ifaces = st.nems_to_ifaces ∧
    st'.ifaces_to_nems = st.ifaces_to_nems := by
  intro moved
  induction moved with
  | nil =>
    intro st acc st' es h
    unfold set_nem_positions_go at h
    simp only [Except.ok.injEq, Prod.mk.injEq] at h
    obtain ⟨hst, _⟩ := h
    subst hst
    exact ⟨rfl, rfl⟩
  | cons iface rest ih =>
    intro st acc st' es h
    unfold set_nem_positions_go at h
    cases hg : get_nem_position getgeo st iface with
    | error e =>
      rw [hg] at h
      exact absurd h (by simp)
    | ok pr =>
      obtain ⟨res, st₂⟩ := pr
      have hmaps := get_nem_position_preserves getgeo st iface res st₂ hg
      rw [hg] at h
      cases res with
      | none =>
        have := ih st₂ acc st' es h
        exact ⟨this.1.trans hmaps.1, this.2.trans hmaps.2⟩
      | some p =>
        have := ih st₂ (acc ++ [p]) st' es h
        exact ⟨this.1.trans hmaps.1, this.2.trans hmaps.2⟩

theorem set_nem_positions_preserves (getgeo : ℚ → ℚ → ℚ → ℚ × ℚ × ℚ)
    (st st' : MState) (moved : List Iface)
    (h : set_nem_positions getgeo st moved = Except.ok st') :
    st'.nems_to_ifaces = st.nems_to_ifaces ∧
    st'.ifaces_to_nems = st.ifaces_to_nems := by
  unfold set_nem_positions at h
  split at h
  · injection h with h'
    subst h'
    exact ⟨rfl, rfl⟩
  · cases hg : set_nem_positions_go getgeo st moved [] with
    | error e =>
      rw [hg] at h
      exact absurd h (by simp)
    | ok pr =>
      obtain ⟨st₂, es⟩ := pr
      have hmaps := snpGo_preserves_nem_maps getgeo moved st [] st₂ es hg
      rw [hg] at h
      injection h with h'
      subst h'
      exact hmaps

/-- C2: the NEM maps form a bijection that every manager operation
preserves: any `Step` (a fresh-interface allocation, a reset, a network
registration, a shutdown, an inbound location event or a batched
position publication) takes a state whose maps are mutually inverse to
a state whose maps are mutually inverse; in particular no nem id is
held by two interfaces and no interface holds two nem ids, and `reset`
re-establishes the (empty) bijection from any state. -/
theorem nem_bijection_preserved (st st' : MState) (hstep : Step st st')
    (hbij : NemBij st) : NemBij st' := by
  cases hstep with
  | nextNem st iface hfresh =>
    unfold NemBij next_nem_id
    dsimp only
    refine maps_bij_insert hbij hfresh ?_
    rw [alookup_eq_none_iff]
    exact nextFree_fresh (st.nems_to_ifaces.map Prod.fst) st.nem_id_start
  | resetStep st =>
    constructor
    · intro n i hni
      simp [reset, alookup] at hni
    · intro i n hin
      simp [reset, alookup] at hin
  | addNode st st' emane_net h =>
    have hp := add_node_ok_preserves st st' emane_net h
    unfold NemBij
    rw [hp.1, hp.2]
    exact hbij
  | shutdownStep st =>
    have hp := shutdown_preserves_nem_maps st
    unfold NemBij
    rw [hp.1, hp.2]
    exact hbij
  | locationEvent getxyz st st' nemid lat lon alt b h =>
    have hp := handle_loc_preserves_nem_maps getxyz st st' nemid lat lon alt b h
    unfold NemBij
    rw [hp.1, hp.2]
    exact hbij
  | nemPositions getgeo st st' moved h =>
    have hp := set_nem_positions_preserves getgeo st st' moved h
    unfold NemBij
    rw [hp.1, hp.2]
    exact hbij

/-- Witness for C2: allocating a nem id for a fresh interface from the
freshly initialized state preserves the bijection. -/
theorem nem_bijection_preserved_witness :
    NemBij (next_nem_id emptyState iface20).2 := by
  refine nem_bijection_preserved emptyState (next_nem_id emptyState iface20).2
    (Step.nextNem emptyState iface20 rfl) ?_
  constructor
  · intro n i hni
    simp [emptyState, alookup] at hni
  · intro i n hin
    simp [emptyState, alookup] at hin
